import Mathlib

/-!
# Verification of lib-wallet-pay-btc core

Shallow embedding of the core data structures and operations of the
lib-wallet-pay-btc Bitcoin wallet (address ledger, request cache, Electrum
response demultiplexer, transaction-view cache, history index, block counter,
block reward, and the transaction builder's error/lock behaviour), together
with theorems settling the specification claims about them.

Amounts are satoshi quantities; the `Bitcoin` currency wrapper in the source
performs exact arbitrary-precision arithmetic, so amounts are modelled as `Int`.
-/

/-! ## Balance (src/address-manager.js, class `Balance`)

A `Balance` keeps three bucket amounts (`confirmed`, `pending`, `mempool`)
and, per bucket, the list of `(txid, amount)` pairs that contributed to it.
-/

inductive Bucket
  | confirmed
  | pending
  | mempool
deriving DecidableEq, Repr

structure Balance where
  confirmed : Int
  pending : Int
  mempool : Int
  txConfirmed : List (String × Int)
  txPending : List (String × Int)
  txMempool : List (String × Int)
deriving DecidableEq, Repr

/-- JS `this.txid[state].filter(([tx]) => tx !== txid)`: drop every record of `t`. -/
def filterTxid (l : List (String × Int)) (t : String) : List (String × Int) :=
  l.filter (fun p => decide (p.1 ≠ t))

/-- Number of `(t, _)` records in a bucket list; the filter callback in
`addTxid` calls `minusBalance` once per such record. -/
def matchCount (l : List (String × Int)) (t : String) : Nat :=
  l.countP (fun p => decide (p.1 = t))

/-- The `for (const state in this.txid)` loop of `Balance.addTxid`: in every
bucket, each record whose txid equals `t` is filtered out and `amount` (the
argument, as in the source) is subtracted from that bucket's balance once per
removed record. -/
def Balance.removePass (b : Balance) (t : String) (amount : Int) : Balance :=
  { confirmed := b.confirmed - amount * (matchCount b.txConfirmed t : Int)
    pending := b.pending - amount * (matchCount b.txPending t : Int)
    mempool := b.mempool - amount * (matchCount b.txMempool t : Int)
    txConfirmed := filterTxid b.txConfirmed t
    txPending := filterTxid b.txPending t
    txMempool := filterTxid b.txMempool t }

/-- JS `addBalance(state, amount)`: `this[state] = this[state].add(amount)`. -/
def Balance.addBalance (b : Balance) (st : Bucket) (amount : Int) : Balance :=
  match st with
  | .confirmed => { b with confirmed := b.confirmed + amount }
  | .pending => { b with pending := b.pending + amount }
  | .mempool => { b with mempool := b.mempool + amount }

/-- JS `this.txid[state].push([txid, amount])`. -/
def Balance.pushTxid (b : Balance) (st : Bucket) (t : String) (amount : Int) : Balance :=
  match st with
  | .confirmed => { b with txConfirmed := b.txConfirmed ++ [(t, amount)] }
  | .pending => { b with txPending := b.txPending ++ [(t, amount)] }
  | .mempool => { b with txMempool := b.txMempool ++ [(t, amount)] }

/-- JS `Balance.addTxid(state, txid, amount)`: remove any prior record of `txid`
from every bucket (subtracting `amount` per removed record), then add `amount`
to bucket `state` and push the `(txid, amount)` record there. -/
def Balance.addTxid (b : Balance) (st : Bucket) (t : String) (amount : Int) : Balance :=
  ((b.removePass t amount).addBalance st amount).pushTxid st t amount

/-- Total `confirmed + pending + mempool`, the consolidated total of
`Balance.formatted`. -/
def sumBuckets (b : Balance) : Int :=
  b.confirmed + b.pending + b.mempool

theorem filterTxid_nil (t : String) : filterTxid [] t = [] := rfl

theorem filterTxid_append (l₁ l₂ : List (String × Int)) (t : String) :
    filterTxid (l₁ ++ l₂) t = filterTxid l₁ t ++ filterTxid l₂ t := by
  simp [filterTxid, List.filter_append]

theorem filterTxid_single_self (t : String) (a : Int) :
    filterTxid [(t, a)] t = [] := by
  simp [filterTxid]

theorem filterTxid_idem (l : List (String × Int)) (t : String) :
    filterTxid (filterTxid l t) t = filterTxid l t := by
  induction l with
  | nil => rfl
  | cons x xs ih =>
    by_cases hx : x.1 = t <;> simp [filterTxid, hx, ih]

theorem matchCount_append (l₁ l₂ : List (String × Int)) (t : String) :
    matchCount (l₁ ++ l₂) t = matchCount l₁ t + matchCount l₂ t := by
  simp [matchCount, List.countP_append]

theorem matchCount_single_self (t : String) (a : Int) :
    matchCount [(t, a)] t = 1 := by
  simp [matchCount, List.countP_cons]

theorem matchCount_filterTxid (l : List (String × Int)) (t : String) :
    matchCount (filterTxid l t) t = 0 := by
  induction l with
  | nil => rfl
  | cons x xs ih =>
    by_cases hx : x.1 = t <;>
      simp [filterTxid, matchCount, List.countP_cons, hx, ih] at ih ⊢

/-- C2: moving a txid recorded once in the mempool bucket (and in no other
bucket) to the confirmed bucket with the same amount leaves the consolidated
total `confirmed + pending + mempool` unchanged. -/
theorem addTxid_mempool_to_confirmed_preserves_sum
    (b : Balance) (t : String) (a : Int)
    (_hmem : (t, a) ∈ b.txMempool)
    (h1 : matchCount b.txMempool t = 1)
    (hc : matchCount b.txConfirmed t = 0)
    (hp : matchCount b.txPending t = 0) :
    sumBuckets (b.addTxid .confirmed t a) = sumBuckets b := by
  simp [Balance.addTxid, Balance.removePass, Balance.addBalance, Balance.pushTxid,
    sumBuckets, h1, hc, hp]
  ring

/-- Witness for C2: a concrete balance with 5 sat recorded in mempool for
txid "t"; moving it to confirmed preserves the consolidated total. -/
theorem addTxid_mempool_to_confirmed_preserves_sum_witness :
    sumBuckets ((Balance.mk 0 0 5 [] [] [("t", 5)]).addTxid .confirmed "t" 5) =
      sumBuckets (Balance.mk 0 0 5 [] [] [("t", 5)]) :=
  addTxid_mempool_to_confirmed_preserves_sum
    (Balance.mk 0 0 5 [] [] [("t", 5)]) "t" 5
    (by decide) (by decide) (by decide) (by decide)

/-- C3: `addTxid` is idempotent: calling `addTxid (b, t, a)` twice in
succession yields exactly the same `Balance` (all bucket amounts and all
txid lists) as calling it once, for every starting state. -/
theorem addTxid_idempotent (b : Balance) (st : Bucket) (t : String) (a : Int) :
    (b.addTxid st t a).addTxid st t a = b.addTxid st t a := by
  cases st <;>
    simp [Balance.addTxid, Balance.removePass, Balance.addBalance, Balance.pushTxid,
      filterTxid_append, filterTxid_idem, filterTxid_single_self,
      matchCount_append, matchCount_filterTxid, matchCount_single_self]

/-! ## BlockCounter (src/utils.js, class `BlockCounter`)

`setBlock` refuses a height below the current block (reorg detection) and
otherwise advances `this.block` and persists it via
`state.setLatestBlock(this.block)`. The returned `Bool` is `true` for the
source's `return true` and `false` for the bare `return` (undefined) on the
reorg path. -/

structure BlockCounterState where
  block : Int
  latestBlockStore : Int
deriving DecidableEq, Repr

def setBlock (s : BlockCounterState) (height : Int) : BlockCounterState × Bool :=
  let diff := height - s.block
  if diff < 0 then
    -- Block reorg? logged; update refused, state not mutated
    (s, false)
  else
    ({ block := height, latestBlockStore := height }, true)

/-- C8: the tracked block height is monotone non-decreasing: a `setBlock`
with height below the current block leaves both the in-memory block and the
persisted `latest_block` unchanged and refuses the update, while a height
greater than or equal to the current block advances both to that height. -/
theorem setBlock_monotone (s : BlockCounterState) (height : Int) :
    (height < s.block → setBlock s height = (s, false)) ∧
    (s.block ≤ height →
      (setBlock s height).1.block = height ∧
      (setBlock s height).1.latestBlockStore = height ∧
      (setBlock s height).2 = true) ∧
    s.block ≤ (setBlock s height).1.block := by
  refine ⟨fun h => ?_, fun h => ?_, ?_⟩
  · simp [setBlock]
    omega
  · simp only [setBlock]
    rw [if_neg (by omega)]
    exact ⟨rfl, rfl, rfl⟩
  · by_cases h : height - s.block < 0
    · simp [setBlock, h]
    · simp [setBlock, h]
      omega

/-- Witness for C8 at concrete inputs: from block 100, height 99 is refused
and height 101 advances both fields. -/
theorem setBlock_monotone_witness :
    setBlock ⟨100, 100⟩ 99 = (⟨100, 100⟩, false) ∧
    (setBlock ⟨100, 100⟩ 101).1.block = 101 ∧
    (setBlock ⟨100, 100⟩ 101).1.latestBlockStore = 101 ∧
    (setBlock ⟨100, 100⟩ 101).2 = true :=
  ⟨(setBlock_monotone ⟨100, 100⟩ 99).1 (by norm_num),
   (setBlock_monotone ⟨100, 100⟩ 101).2.1 (by norm_num)⟩

/-! ## Block reward (provider file, `getBlockReward`)

`getBlockReward` computes `BN(50).times(1e8).dividedBy(BN(2).pow(halvings))`
with `halvings = Math.floor(height / 210000)`. BigNumber arithmetic here is
exact decimal arithmetic, so the value is modelled in `ℚ`; `Nat` division
is `Math.floor` for the non-negative heights involved. -/

def getBlockReward (height : Nat) : ℚ :=
  let initialReward : ℚ := 50 * 100000000
  let halvingInterval : Nat := 210000
  let halvings : Nat := height / halvingInterval
  initialReward / 2 ^ halvings

/-- C9: for every height `h ≥ 0`, the synthesized coinbase block reward is
exactly `5,000,000,000 / 2 ^ (h / 210000)` satoshis; in particular
5,000,000,000 sat at height 0, 2,500,000,000 sat at height 210,000 and
625,000,000 sat at height 630,000. -/
theorem getBlockReward_halving :
    (∀ h : Nat, getBlockReward h = 5000000000 / 2 ^ (h / 210000)) ∧
    getBlockReward 0 = 5000000000 ∧
    getBlockReward 210000 = 2500000000 ∧
    getBlockReward 630000 = 625000000 := by
  refine ⟨fun h => by norm_num [getBlockReward], ?_, ?_, ?_⟩ <;>
    norm_num [getBlockReward]

/-! ## Fee-limit validation (src/transaction.js)

The constructor assigns `this._max_fee_limit = 100000 || config.max_fee_limit`;
since the literal `100000` is truthy, the JS `||` always yields `100000` and
the configured value is dead. `_createTransaction` rejects with
`'Invalid fee'` when `!fee || fee <= 0 || fee > this._max_fee_limit`. The
fee is modelled as `Option Int` (`none` = absent/undefined; a JS `!fee` on a
number is `fee = 0`). -/

def jsNumOr (a : Int) (b : Option Int) : Int :=
  if a ≠ 0 then a else b.getD 0

/-- JS `this._max_fee_limit` as assigned by the constructor, as a function of
`config.max_fee_limit`. -/
def mkMaxFeeLimit (configMaxFeeLimit : Option Int) : Int :=
  jsNumOr 100000 configMaxFeeLimit

/-- The `_createTransaction` fee guard `!fee || fee <= 0 || fee > limit`. -/
def feeRejected (fee : Option Int) (maxFeeLimit : Int) : Bool :=
  match fee with
  | none => true
  | some f => decide (f = 0) || decide (f ≤ 0) || decide (f > maxFeeLimit)

/-- C10: the fee-rate upper bound is the constant 100,000 no matter what
`config.max_fee_limit` holds, and the guard rejects exactly an absent, zero,
negative, or greater-than-100,000 fee. -/
theorem feeRejected_iff :
    (∀ cfg : Option Int, mkMaxFeeLimit cfg = 100000) ∧
    (∀ (cfg : Option Int) (fee : Option Int),
      feeRejected fee (mkMaxFeeLimit cfg) = true ↔
        fee = none ∨ ∃ f, fee = some f ∧ (f = 0 ∨ f < 0 ∨ f > 100000)) := by
  constructor
  · intro cfg
    simp [mkMaxFeeLimit, jsNumOr]
  · intro cfg fee
    cases fee with
    | none => simp [feeRejected]
    | some f =>
      simp [feeRejected, mkMaxFeeLimit, jsNumOr]
      omega

/-! ## RequestCache (provider file, class `RequestCache`)

The backing store is an association list from string keys to either the
persisted `cache_index` (a list of keys in insertion order) or a cached
`[value, expiry]` pair. `put` replaces any existing entry for the key. -/

inductive CacheVal
  | idx (keys : List String)
  | entry (value : Nat) (expiry : Nat)
deriving DecidableEq, Repr

abbrev CStore := List (String × CacheVal)

def cstoreGet (s : CStore) (k : String) : Option CacheVal :=
  (s.find? (fun p => decide (p.1 = k))).map (·.2)

def cstoreDelete (s : CStore) (k : String) : CStore :=
  s.filter (fun p => decide (p.1 ≠ k))

def cstorePut (s : CStore) (k : String) (v : CacheVal) : CStore :=
  cstoreDelete s k ++ [(k, v)]

structure RequestCache where
  store : CStore
  /-- JS `_cache_expiry = config.cache_timeout || 300000` -/
  cacheExpiry : Nat
  /-- JS `_max_cache_size = config.max_cache_size || 10000`; assigned by the
  constructor but read nowhere else in the class. -/
  maxCacheSize : Nat
  /-- JS `_cache_size`, initialised to 0; the `size` setter is
  `set size (val) { return null }`, so no assignment ever changes it. -/
  cacheSize : Nat
deriving Repr

/-- JS `RequestCache` constructor: `config.cache_timeout` and
`config.max_cache_size` with their `||` defaults (a `none` models an absent
or falsy config value). -/
def RequestCache.create (store : CStore) (cacheTimeout maxCacheSize : Option Nat) :
    RequestCache :=
  { store := store
    cacheExpiry := cacheTimeout.getD 300000
    maxCacheSize := maxCacheSize.getD 10000
    cacheSize := 0 }

/-- JS `this._max_session_size`: the eviction guard in `set` reads this
property, but no code in the class ever assigns it, so the access yields
`undefined`. -/
def RequestCache.maxSessionSize (_ : RequestCache) : Option Nat := none

/-- JS `a >= b` where `b` may be `undefined`: a comparison against
`undefined` coerces to `NaN` and is `false`. -/
def jsGeOpt (a : Nat) : Option Nat → Bool
  | none => false
  | some b => decide (b ≤ a)

/-- JS `_getCacheIndex`: `(await store.get('cache_index')) || []`. -/
def getCacheIndex (s : CStore) : List String :=
  match cstoreGet s "cache_index" with
  | some (.idx keys) => keys
  | _ => []

/-- JS `_removeOldest`: shift the head off the persisted index, delete that
key, persist the shortened index. (Shifting an empty index yields
`undefined`; deleting an undefined key removes nothing.) -/
def RequestCache.removeOldest (c : RequestCache) : RequestCache :=
  match getCacheIndex c.store with
  | [] => { c with store := cstorePut c.store "cache_index" (.idx []) }
  | k :: rest =>
      { c with store := cstorePut (cstoreDelete c.store k) "cache_index" (.idx rest) }

/-- JS `RequestCache.set(key, value)`. `valueExpiry` models `value.expiry`
(`none` when absent/falsy). The eviction guard compares `_cache_size`
against the undefined `_max_session_size`; the later `this.size =
index.length` assignment hits the no-op setter and leaves `_cache_size`
unchanged. -/
def RequestCache.set (c : RequestCache) (key : String) (value : Nat)
    (valueExpiry : Option Nat) (now : Nat) : RequestCache :=
  let c := if jsGeOpt c.cacheSize c.maxSessionSize then c.removeOldest else c
  let data : CacheVal :=
    match valueExpiry with
    | none => .entry value (now + c.cacheExpiry)
    | some e => .entry value e
  let index := getCacheIndex c.store ++ [key]
  let store1 := cstorePut c.store "cache_index" (.idx index)
  { c with store := cstorePut store1 key data }

/-- Number of cached entries (everything but the persisted `cache_index`). -/
def cachedEntryCount (s : CStore) : Nat :=
  s.countP (fun p => decide (p.1 ≠ "cache_index"))

/-- C4 (code bug): with `max_cache_size = 1`, two inserts of distinct keys
leave two cached entries — the eviction guard compares the never-updated
`_cache_size` (0) against the undefined `_max_session_size`, which is always
false, so `set` never evicts and the bound is violated. -/
theorem requestCache_bound_violated :
    cachedEntryCount
      (((RequestCache.create [] none (some 1)).set "a" 1 none 0).set "b" 2 none 0).store = 2 ∧
    (((RequestCache.create [] none (some 1)).set "a" 1 none 0).set "b" 2 none 0).maxCacheSize = 1 ∧
    (((RequestCache.create [] none (some 1)).set "a" 1 none 0).set "b" 2 none 0).cacheSize = 0 := by
  constructor
  · rfl
  · constructor <;> rfl

/-! ## Electrum response demultiplexer (provider file, `_handleResponse`)

JSON values are modelled with enough structure to decide JS truthiness;
`Option JVal` distinguishes an absent field (`none`, i.e. `undefined`) from a
present `null`. -/

inductive JVal
  | null
  | bool (b : Bool)
  | num (n : Int)
  | str (s : String)
  /-- any object or array; always truthy -/
  | obj
deriving DecidableEq, Repr

/-- JS truthiness of a possibly-absent value. -/
def truthy : Option JVal → Bool
  | none => false
  | some .null => false
  | some (.bool b) => b
  | some (.num n) => decide (n ≠ 0)
  | some (.str s) => decide (s ≠ "")
  | some .obj => true

/-- JS `a || b`. -/
def jsOr (a b : Option JVal) : Option JVal :=
  if truthy a then a else b

/-- JS `resp?.method?.includes('.subscribe')`: the method string, when present,
contains `".subscribe"` as a substring. -/
def includesSubscribe : Option String → Bool
  | none => false
  | some s => decide ((s.splitOn ".subscribe").length > 1)

/-- A parsed response frame. `none` fields are absent (`undefined`). -/
structure RpcResp where
  id : Option JVal
  method : Option String
  error : Option JVal
  result : Option JVal
deriving DecidableEq, Repr

/-- What `_handleResponse` does with a parsed frame. -/
inductive RespAction
  /-- re-emitted as a subscription push -/
  | subscribeEmit
  /-- pending entry rejected with an RPC error -/
  | rejected
  /-- error present, no pending entry: entry deleted silently -/
  | erroredNoHandler
  /-- Event `request-error` emitted: no handler for the id -/
  | requestError
  /-- pending entry resolved with this value (`none` = `undefined`) -/
  | resolved (v : Option JVal)
deriving DecidableEq, Repr

/-- JS `_handleResponse` after JSON parsing, for a frame whose id does
(`pending = true`) or does not (`pending = false`) match a pending request. -/
def handleResponse (resp : RpcResp) (pending : Bool) : RespAction :=
  if includesSubscribe resp.method then
    .subscribeEmit
  else if truthy resp.error then
    if pending then .rejected else .erroredNoHandler
  else if !pending then
    .requestError
  else
    -- const isNull = resp.result === null
    -- resolve(isNull ? null : (resp.result || resp.error))
    let isNull : Bool := resp.result == some JVal.null
    .resolved (if isNull then some JVal.null else jsOr resp.result resp.error)

/-- C5 counterexample: a frame with a matching pending request, no `error`
field and `result = 0` is resolved with `undefined` (because
`resp.result || resp.error` discards the falsy `0`), not with `0`. -/
theorem handleResponse_falsy_result_counterexample :
    handleResponse ⟨some (.num 1), none, none, some (.num 0)⟩ true ≠
      RespAction.resolved (some (.num 0)) ∧
    handleResponse ⟨some (.num 1), none, none, some (.num 0)⟩ true =
      RespAction.resolved none := by
  constructor
  · decide
  · rfl

/-- C5 amended: for a frame matching a pending request, with no subscription
method and no error field, a present result is delivered exactly when it is
`null` or truthy; a falsy non-null result (`0`, `false`, `""`) falls through
`resp.result || resp.error` and the request is resolved with `undefined`. -/
theorem handleResponse_result_delivery (resp : RpcResp) (v : JVal)
    (hm : includesSubscribe resp.method = false)
    (he : resp.error = none)
    (hr : resp.result = some v) :
    handleResponse resp true =
      RespAction.resolved (if v = JVal.null ∨ truthy (some v) then some v else none) := by
  simp only [handleResponse, hm, he, hr, Bool.false_eq_true, if_false, Bool.not_true]
  cases v with
  | null => simp [truthy]
  | bool b => cases b <;> simp [jsOr, truthy]
  | num n => by_cases hn : n = 0 <;> simp [jsOr, truthy, hn]
  | str s => by_cases hs : s = "" <;> simp [jsOr, truthy, hs]
  | obj => simp [jsOr, truthy]

/-- Witness for C5 amended: a string result `"ok"` is delivered as-is. -/
theorem handleResponse_result_delivery_witness :
    handleResponse ⟨some (.num 1), none, none, some (.str "ok")⟩ true =
      RespAction.resolved (some (.str "ok")) := by
  have h := handleResponse_result_delivery
    ⟨some (.num 1), none, none, some (.str "ok")⟩ (.str "ok") rfl rfl rfl
  simpa using h

/-! ## Transaction fetch cache semantics (provider file, `_txGet`)

`_txGet(txid, opts)` consults the `RequestCache` unless `opts.cache === false`;
a cached view is served only when present with nonzero height. A fetch runs
`_getTransaction` (the server call, modelled by its result `fetched`), applies
`_procTxHeight` and writes the view back to the cache. -/

/-- A raw `blockchain.transaction.get` result; only the fields `_txGet`
inspects are modelled, the rest of the verbose payload is `payload`. -/
structure RawTx where
  /-- JS `confirmations` (`none` = field absent) -/
  confirmations : Option Nat
  payload : Nat
deriving DecidableEq, Repr

/-- A cached transaction view: its computed height plus the rest of the data. -/
structure TxView where
  height : Int
  payload : Nat
deriving DecidableEq, Repr

/-- JS `_procTxHeight`: height 0 when `confirmations` is absent or 0, else
`block_height - (confirmations - 1)`. -/
def procTxHeight (blockHeight : Int) (tx : RawTx) : TxView :=
  match tx.confirmations with
  | none => { height := 0, payload := tx.payload }
  | some c =>
      if c = 0 then { height := 0, payload := tx.payload }
      else { height := blockHeight - ((c : Int) - 1), payload := tx.payload }

structure TxGetResult where
  /-- the view returned to the caller -/
  value : TxView
  /-- whether `_getTransaction` was called -/
  didFetch : Bool
  /-- the view written to the cache (`none` when nothing was written) -/
  cacheWrite : Option TxView
deriving DecidableEq, Repr

/-- JS `_txGet`: `optsCache` is `opts.cache` (`none` = absent), `cached` is
`cache.get(txid)`, `fetched` the server's raw reply. -/
def txGet (optsCache : Option Bool) (cached : Option TxView) (blockHeight : Int)
    (fetched : RawTx) : TxGetResult :=
  if optsCache == some false then
    let data := procTxHeight blockHeight fetched
    ⟨data, true, some data⟩
  else
    match cached with
    | some cv =>
        if cv.height ≠ 0 then ⟨cv, false, none⟩
        else
          let data := procTxHeight blockHeight fetched
          ⟨data, true, some data⟩
    | none =>
        let data := procTxHeight blockHeight fetched
        ⟨data, true, some data⟩

/-- C6: with `opts.cache ≠ false` the cached view is served exactly when it
exists with nonzero height; a cached height-0 view is never served — the tx
is re-fetched, reprocessed and the cache updated — as it is on a cache miss;
and `opts.cache = false` always fetches and updates the cache. -/
theorem txGet_cache_semantics (optsCache : Option Bool) (cached : Option TxView)
    (blockHeight : Int) (fetched : RawTx) :
    (optsCache ≠ some false →
      ((txGet optsCache cached blockHeight fetched).didFetch = false ↔
        ∃ cv, cached = some cv ∧ cv.height ≠ 0 ∧
          (txGet optsCache cached blockHeight fetched).value = cv)) ∧
    (∀ cv, cached = some cv → cv.height = 0 →
      txGet optsCache cached blockHeight fetched =
        ⟨procTxHeight blockHeight fetched, true, some (procTxHeight blockHeight fetched)⟩) ∧
    (cached = none →
      txGet optsCache cached blockHeight fetched =
        ⟨procTxHeight blockHeight fetched, true, some (procTxHeight blockHeight fetched)⟩) ∧
    (optsCache = some false →
      txGet optsCache cached blockHeight fetched =
        ⟨procTxHeight blockHeight fetched, true, some (procTxHeight blockHeight fetched)⟩) := by
  refine ⟨fun hoc => ?_, fun cv hcv h0 => ?_, fun hnone => ?_, fun hoc => ?_⟩
  · have hb : (optsCache == some false) = false := by
      cases optsCache with
      | none => rfl
      | some b => cases b <;> simp_all
    cases cached with
    | none => simp [txGet, hb]
    | some cv =>
      by_cases hh : cv.height = 0 <;> simp [txGet, hb, hh]
  · subst hcv
    by_cases hb : optsCache == some false <;> simp [txGet, hb, h0]
  · subst hnone
    by_cases hb : optsCache == some false <;> simp [txGet, hb]
  · subst hoc
    simp [txGet]

/-- Witness for C6 at concrete inputs: a cached height-7 view is served
without fetching, and a cached height-0 view is re-fetched. -/
theorem txGet_cache_semantics_witness :
    ((txGet none (some ⟨7, 42⟩) 100 ⟨some 3, 9⟩).didFetch = false ↔
      ∃ cv, (some ⟨7, 42⟩ : Option TxView) = some cv ∧ cv.height ≠ 0 ∧
        (txGet none (some ⟨7, 42⟩) 100 ⟨some 3, 9⟩).value = cv) ∧
    txGet none (some ⟨0, 42⟩) 100 ⟨some 3, 9⟩ =
      ⟨procTxHeight 100 ⟨some 3, 9⟩, true, some (procTxHeight 100 ⟨some 3, 9⟩)⟩ :=
  ⟨(txGet_cache_semantics none (some ⟨7, 42⟩) 100 ⟨some 3, 9⟩).1 (by decide),
   (txGet_cache_semantics none (some ⟨0, 42⟩) 100 ⟨some 3, 9⟩).2.1 ⟨0, 42⟩ rfl rfl⟩

/-! ## Transaction history index (src/address-manager.js, `AddressManager`)

The `tx-history` store maps structured keys — `i:<height>:<txid>` (primary,
by height) and `tx:<txid>` (reverse lookup) — to either a stored transaction
view or a height. `put` replaces any existing entry for the key; `delete`
removes it. Heights are `Int` so that the source's `tx.height - 1` at height
0 yields the (distinct) key `i:-1:<txid>`. -/

inductive HKey
  /-- Key `i:<height>:<txid>` -/
  | hist (height : Int) (txid : String)
  /-- Key `tx:<txid>` -/
  | rev (txid : String)
deriving DecidableEq, Repr

/-- A stored transaction view: its txid, height and remaining data. -/
structure TxRec where
  txid : String
  height : Int
  payload : Nat
deriving DecidableEq, Repr

inductive HVal
  | tx (t : TxRec)
  | h (height : Int)
deriving DecidableEq, Repr

abbrev History := List (HKey × HVal)


/-- JS `store.get(key)`: the value at the first matching key, if any. -/
def histGet : History → HKey → Option HVal
  | [], _ => none
  | x :: xs, k => if x.1 = k then some x.2 else histGet xs k

/-- JS `store.delete(key)`: remove the entries at `key`. -/
def histDelete : History → HKey → History
  | [], _ => []
  | x :: xs, k => if x.1 = k then histDelete xs k else x :: histDelete xs k

/-- JS `store.put(key, value)`: replace the entry at `key`. -/
def histPut (s : History) (k : HKey) (v : HVal) : History :=
  histDelete s k ++ [(k, v)]

/-- JS `AddressManager.storeTx(tx)`: delete the stale `i:0:<txid>` and
`i:<height-1>:<txid>` keys, then write the primary `i:<height>:<txid>` key
and the reverse `tx:<txid> → height` key. -/
def storeTx (s : History) (t : TxRec) : History :=
  let s1 := histDelete s (.hist 0 t.txid)
  let s2 := histDelete s1 (.hist (t.height - 1) t.txid)
  let s3 := histPut s2 (.hist t.height t.txid) (.tx t)
  histPut s3 (.rev t.txid) (.h t.height)

/-- JS `AddressManager.getHeight(txid)`: read the `tx:<txid>` key. -/
def getHeight (s : History) (txid : String) : Option HVal :=
  histGet s (.rev txid)

theorem histGet_delete_self (s : History) (k : HKey) :
    histGet (histDelete s k) k = none := by
  induction s with
  | nil => rfl
  | cons x xs ih =>
    by_cases hx : x.1 = k <;> simp [histDelete, histGet, hx, ih]

theorem histGet_delete_ne (s : History) (k k' : HKey) (hne : k' ≠ k) :
    histGet (histDelete s k) k' = histGet s k' := by
  induction s with
  | nil => rfl
  | cons x xs ih =>
    by_cases hx : x.1 = k
    · have hx' : ¬x.1 = k' := by rw [hx]; exact Ne.symm hne
      simp [histDelete, histGet, hx, hx', Ne.symm hne, ih]
    · by_cases hx' : x.1 = k' <;> simp [histDelete, histGet, hx, hx', hne, ih]

theorem histGet_put_self (s : History) (k : HKey) (v : HVal) :
    histGet (histPut s k v) k = some v := by
  induction s with
  | nil => simp [histPut, histDelete, histGet]
  | cons x xs ih =>
    by_cases hx : x.1 = k
    · simpa [histPut, histDelete, hx] using ih
    · simpa [histPut, histDelete, histGet, hx] using ih

theorem histGet_put_ne (s : History) (k k' : HKey) (v : HVal) (hne : k' ≠ k) :
    histGet (histPut s k v) k' = histGet (histDelete s k) k' := by
  induction s with
  | nil => simp [histPut, histDelete, histGet, Ne.symm hne]
  | cons x xs ih =>
    by_cases hx : x.1 = k
    · simpa [histPut, histDelete, hx] using ih
    · by_cases hx' : x.1 = k'
      · simp [histPut, histDelete, histGet, hx, hx', hne]
      · simpa [histPut, histDelete, histGet, hx, hx'] using ih

/-- C7: after `storeTx(tx)` the reverse lookup `getHeight(tx.txid)` returns
`tx.height`, the primary key `i:<height>:<txid>` holds the stored view, the
stale `i:<height-1>:<txid>` key is gone, and (for a transaction with
`height ≠ 0`, so that `i:0` is not the freshly written primary key) the stale
`i:0:<txid>` key is gone as well. -/
theorem storeTx_roundtrip (s : History) (t : TxRec) :
    getHeight (storeTx s t) t.txid = some (.h t.height) ∧
    histGet (storeTx s t) (.hist t.height t.txid) = some (.tx t) ∧
    histGet (storeTx s t) (.hist (t.height - 1) t.txid) = none ∧
    (t.height ≠ 0 → histGet (storeTx s t) (.hist 0 t.txid) = none) := by
  refine ⟨?_, ?_, ?_, fun h0 => ?_⟩
  · exact histGet_put_self _ _ _
  · rw [storeTx, histGet_put_ne _ _ _ _ (by simp), histGet_delete_ne _ _ _ (by simp)]
    exact histGet_put_self _ _ _
  · have hne1 : HKey.hist (t.height - 1) t.txid ≠ HKey.rev t.txid := by simp
    have hne2 : HKey.hist (t.height - 1) t.txid ≠ HKey.hist t.height t.txid := by
      intro hcon
      injection hcon with hh _
      omega
    rw [storeTx, histGet_put_ne _ _ _ _ hne1, histGet_delete_ne _ _ _ hne1,
      histGet_put_ne _ _ _ _ hne2, histGet_delete_ne _ _ _ hne2]
    exact histGet_delete_self _ _
  · have hne1 : HKey.hist 0 t.txid ≠ HKey.rev t.txid := by simp
    have hne2 : HKey.hist 0 t.txid ≠ HKey.hist t.height t.txid := by
      intro hcon
      injection hcon with hh _
      exact h0 hh.symm
    rw [storeTx, histGet_put_ne _ _ _ _ hne1, histGet_delete_ne _ _ _ hne1,
      histGet_put_ne _ _ _ _ hne2, histGet_delete_ne _ _ _ hne2]
    by_cases h1 : t.height = 1
    · rw [h1]
      norm_num
      exact histGet_delete_self _ _
    · have hne3 : HKey.hist 0 t.txid ≠ HKey.hist (t.height - 1) t.txid := by
        intro hcon
        injection hcon with hh _
        omega
      rw [histGet_delete_ne _ _ _ hne3]
      exact histGet_delete_self _ _

/-- Witness for C7: storing a height-9 view over a store still holding its
stale mempool (`i:0`) and previous-height (`i:8`) copies. -/
theorem storeTx_roundtrip_witness :
    getHeight (storeTx [(.hist 0 "a", .tx ⟨"a", 0, 1⟩), (.hist 8 "a", .tx ⟨"a", 8, 2⟩)]
        ⟨"a", 9, 3⟩) "a" = some (.h 9) ∧
    histGet (storeTx [(.hist 0 "a", .tx ⟨"a", 0, 1⟩), (.hist 8 "a", .tx ⟨"a", 8, 2⟩)]
        ⟨"a", 9, 3⟩) (.hist 9 "a") = some (.tx ⟨"a", 9, 3⟩) ∧
    histGet (storeTx [(.hist 0 "a", .tx ⟨"a", 0, 1⟩), (.hist 8 "a", .tx ⟨"a", 8, 2⟩)]
        ⟨"a", 9, 3⟩) (.hist 8 "a") = none ∧
    histGet (storeTx [(.hist 0 "a", .tx ⟨"a", 0, 1⟩), (.hist 8 "a", .tx ⟨"a", 8, 2⟩)]
        ⟨"a", 9, 3⟩) (.hist 0 "a") = none := by
  have h := storeTx_roundtrip
    [(.hist 0 "a", .tx ⟨"a", 0, 1⟩), (.hist 8 "a", .tx ⟨"a", 8, 2⟩)] ⟨"a", 9, 3⟩
  exact ⟨h.1, h.2.1, by simpa using h.2.2.1, h.2.2.2 (by norm_num)⟩

/-! ## Transaction builder (src/transaction.js, `Transaction.send`)

The builder's control flow is embedded with its externally observable
effects: the sequence of `syncManager.unlockUtxo(…)` and
`syncManager.addSentTx(…)` calls, and the error it throws. The environment
abstracts the collaborators: `utxos` is the stream of `utxoForAmount`
results (each the `total` of a returned UTXO set in base units, `none` when
`utxoForAmount` throws because no more UTXOs exist), `vsize` the virtual
size `bitcoinjs-lib` reports for the probe transaction, and `broadcast` the
provider's behaviour for `broadcastTransaction`. -/

def DUST_LIMIT : Int := 546

inductive GenErr
  /-- JS `'send amount must be bigger than dust limit …'` -/
  | dust
  /-- JS `utxoForAmount` threw: not enough UTXOs -/
  | insufficient
deriving DecidableEq, Repr

inductive TxErr
  /-- JS `'Invalid fee …'` -/
  | invalidFee
  /-- JS `'Failed to simulate tx: …'` -/
  | simulateFailed (e : GenErr)
  /-- JS `'failed to send transaction…'` -/
  | sendFailed (e : GenErr)
  /-- JS `utxoForAmount` threw in `_createTransaction` before the two passes -/
  | noUtxo
  /-- JS `'failed to broadcast tx'` (the broadcast call threw) -/
  | broadcastThrow
  /-- JS `'Broadcast failed: …'` (the server answered with a `message`) -/
  | broadcastRejected
deriving DecidableEq, Repr

/-- Observable collaborator calls, in order. -/
inductive Ev
  | unlock (success : Bool)
  | addSent
deriving DecidableEq, Repr

inductive BroadcastOutcome
  /-- resolves with a txid -/
  | ok
  /-- resolves with an object carrying `message` -/
  | errMessage
  /-- rejects -/
  | throws
deriving DecidableEq, Repr

structure SendEnv where
  /-- JS `opts.fee` (`none` = absent) -/
  fee : Option Int
  /-- JS `sendAmount.toBaseUnit()` -/
  sendAmount : Int
  /-- totals of the UTXO sets successive `utxoForAmount` calls return -/
  utxos : List (Option Int)
  /-- JS `vSize` of the probe transaction (from `bitcoinjs-lib`) -/
  vsize : Int
  broadcast : BroadcastOutcome
deriving DecidableEq, Repr

/-- JS `Transaction._generateRawTx(utxoSet, fee, sendAmount, …, weight)`:
dust check, change computation, and the under-funded retry loop that calls
`unlockUtxo(false)` and requests a larger UTXO set. Returns the change on
success, the events emitted, and the unconsumed `utxoForAmount` stream. -/
def generateRawTx (utxos : List (Option Int)) (total fee amt weight : Int) :
    Except GenErr Int × List Ev × List (Option Int) :=
  if amt ≤ DUST_LIMIT then (.error .dust, [], utxos)
  else
    let totalFee := fee * weight
    let change := total - amt - totalFee
    if change < DUST_LIMIT then
      -- await this._syncManager.unlockUtxo(false); fetch a bigger set; retry
      match utxos with
      | [] => (.error .insufficient, [.unlock false], [])
      | none :: rest => (.error .insufficient, [.unlock false], rest)
      | some total' :: rest =>
          let r := generateRawTx rest total' fee amt weight
          (r.1, .unlock false :: r.2.1, r.2.2)
    else
      (.ok change, [], utxos)

/-- JS `Transaction._createTransaction({address, amount, unit, fee})`: fee
validation, initial coin selection, the probe pass (`weight = 1`), the
finalize pass (`weight = vSize`, reusing the originally selected UTXO set),
and `addSentTx` on success. -/
def createTransaction (env : SendEnv) : Except TxErr Int × List Ev :=
  match env.fee with
  | none => (.error .invalidFee, [])
  | some f =>
    if f ≤ 0 ∨ f > 100000 then (.error .invalidFee, [])
    else
      match env.utxos with
      | [] => (.error .noUtxo, [])
      | none :: _ => (.error .noUtxo, [])
      | some total :: rest =>
        let r1 := generateRawTx rest total f env.sendAmount 1
        match r1.1 with
        | .error g => (.error (.simulateFailed g), r1.2.1)
        | .ok _ =>
          let r2 := generateRawTx r1.2.2 total f env.sendAmount env.vsize
          match r2.1 with
          | .error g => (.error (.sendFailed g), r1.2.1 ++ r2.2.1)
          | .ok c2 => (.ok c2, r1.2.1 ++ r2.2.1 ++ [.addSent])

/-- JS `Transaction.send(opts)`: build, broadcast, and unlock. The result pairs
the outcome with the events emitted in order. -/
def send (env : SendEnv) : Except TxErr Int × List Ev :=
  let r := createTransaction env
  match r.1 with
  | .error e => (.error e, r.2)
  | .ok tx =>
    match env.broadcast with
    | .throws => (.error .broadcastThrow, r.2)
    | .errMessage => (.error .broadcastRejected, r.2 ++ [.unlock false])
    | .ok => (.ok tx, r.2 ++ [.unlock true])

/-- C1 (code bug): two user-visible `send` failures that release no UTXO
lock. A 500-sat (below-dust) send whose coin selection succeeded errors with
`'Failed to simulate tx: …'` emitting no events at all — `unlockUtxo(false)`
is never called and the selected UTXOs stay locked; likewise a send whose
broadcast call throws errors with `'failed to broadcast tx'` having emitted
only `addSentTx`. -/
theorem send_failure_keeps_locks :
    send ⟨some 1000, 500, [some 100000], 110, .ok⟩ =
      (.error (.simulateFailed .dust), []) ∧
    send ⟨some 2, 5000, [some 100000], 110, .throws⟩ =
      (.error .broadcastThrow, [.addSent]) := by
  constructor <;> rfl
